import Mathlib

/-!
Verification of the `idl-parser` repository: a parser for a small endpoint
notation (`METHOD /path/{var:type}?q:type&... RQ -> RS`) into a typed
`Endpoint` model.

The node-to-model converters are translated from `src/lib.rs`
(`TryFrom<Pair<Rule>>` implementations).  The pest grammar file
(`grammar.pest`) is not part of the available sources, so the syntax stage
(the Rule Tree Producer) is modelled from the specification's grammar
section; every definition of that stage says so in its doc comment.

Rust `Result` values are modelled by `RResult`, which has a third
constructor `abort` modelling a Rust panic (`unwrap` on `Err`/`None`,
explicit `panic!`).
-/

namespace IDL

/-- Grammar rule tags, as in the derived `Rule` enum of `src/lib.rs`
(`endpoint`, `method`, `path`, `segment`, `variable`, `variable_type`,
`query_params`, `request_type`, `response_type`); `ident` stands for the
anonymous inner token nodes whose rule tag the converters never inspect
(only their text is read). The `variable` tag is spelled `var` here. -/
inductive Rule where
  | endpoint
  | method
  | path
  | segment
  | var
  | variable_type
  | query_params
  | request_type
  | response_type
  | ident
deriving DecidableEq

/-- A pest syntax node (`Pair`): its rule tag, its matched text
(`as_str`), and its children (`into_inner`). -/
inductive Pair where
  | mk (rule : Rule) (text : String) (children : List Pair)

/-- The rule tag of a node (`as_rule`). -/
def Pair.rule : Pair → Rule
  | .mk r _ _ => r

/-- The matched text of a node (`as_str`). -/
def Pair.text : Pair → String
  | .mk _ t _ => t

/-- The child nodes of a node (`into_inner`). -/
def Pair.children : Pair → List Pair
  | .mk _ _ cs => cs

/-- `ParseError` from `src/lib.rs`: `UnexpectRule`, `UnsupportType`, and
`PestError` (the wrapped grammar-stage error; its payload is not modelled
as no claim depends on it). -/
inductive ParseError where
  | UnexpectRule
  | UnsupportType
  | PestError
deriving DecidableEq

/-- Outcome of a Rust computation returning `Result<α, ParseError>`:
`ok`, `err`, or `abort` (the computation panicked). -/
inductive RResult (α : Type) where
  | ok : α → RResult α
  | err : ParseError → RResult α
  | abort : RResult α
deriving DecidableEq

/-- `Method` enum from `src/lib.rs`. -/
inductive Method where
  | GET
  | POST
  | PUT
  | DELETE
deriving DecidableEq

/-- `VariableType` enum from `src/lib.rs`. -/
inductive VariableType where
  | string
  | short
  | int
  | long
  | float
  | double
  | bool
deriving DecidableEq

/-- `Variable(String, VariableType)` tuple struct from `src/lib.rs`. -/
structure Variable where
  name : String
  ty : VariableType
deriving DecidableEq

/-- `Path` enum from `src/lib.rs`: a literal segment or a typed variable. -/
inductive Path where
  | Segment (s : String)
  | Variable (name : String) (ty : VariableType)
deriving DecidableEq

/-- `RequestType(String)` newtype from `src/lib.rs`. -/
structure RequestType where
  s : String
deriving DecidableEq

/-- `ResponseType(String)` newtype from `src/lib.rs`. -/
structure ResponseType where
  s : String
deriving DecidableEq

/-- `Endpoint` struct from `src/lib.rs`. -/
structure Endpoint where
  method : Method
  path : List Path
  query_params : List Variable
  request_type : Option String
  response_type : Option String
deriving DecidableEq

/-- `str::to_lowercase` as used in the converters, character-wise
(the tokens reaching it are ASCII identifiers, on which Rust's Unicode
lowercasing and per-character ASCII lowercasing agree). -/
def toLowerStr (s : String) : String := String.mk (s.data.map Char.toLower)

/-- `str::to_uppercase`, character-wise (same ASCII remark). -/
def toUpperStr (s : String) : String := String.mk (s.data.map Char.toUpper)

/-- `impl TryFrom<Pair> for VariableType` (src/lib.rs lines 119-138):
guard on the `variable_type` tag, lowercase the text, match the seven
recognized names, otherwise `UnsupportType`. -/
def VariableType.tryFrom (p : Pair) : RResult VariableType :=
  if p.rule = Rule.variable_type then
    match toLowerStr p.text with
    | "string" => .ok .string
    | "short" => .ok .short
    | "int" => .ok .int
    | "long" => .ok .long
    | "float" => .ok .float
    | "double" => .ok .double
    | "bool" => .ok .bool
    | _ => .err .UnsupportType
  else
    .err .UnexpectRule

/-- `impl TryFrom<Pair> for Variable` (src/lib.rs lines 143-157):
guard on the `variable` tag, take the first child as the name (verbatim
text) and the second as the type; `pairs.next().unwrap()` panics when a
child is missing; the type conversion error is propagated with `?`. -/
def Variable.tryFrom (p : Pair) : RResult Variable :=
  if p.rule = Rule.var then
    match p.children with
    | [] => .abort
    | nameNode :: rest =>
      match rest with
      | [] => .abort
      | tyNode :: _ =>
        match VariableType.tryFrom tyNode with
        | .ok t => .ok ⟨nameNode.text, t⟩
        | .err e => .err e
        | .abort => .abort
  else
    .err .UnexpectRule

/-- `impl TryFrom<Pair> for Method` (src/lib.rs lines 159-176): guard on
the `method` tag, take the inner token, uppercase it and match the four
verbs; a missing child or an unmatched verb is `panic!("Impossible")`. -/
def Method.tryFrom (p : Pair) : RResult Method :=
  if p.rule = Rule.method then
    match p.children with
    | [] => .abort
    | m :: _ =>
      match toUpperStr m.text with
      | "GET" => .ok .GET
      | "POST" => .ok .POST
      | "PUT" => .ok .PUT
      | "DELETE" => .ok .DELETE
      | _ => .abort
  else
    .err .UnexpectRule

/-- `impl TryFrom<Pair> for Path` (src/lib.rs lines 178-193): a
`segment` node yields `Segment` of its inner token's text
(`next().unwrap()` panics when absent); a `variable` node is delegated to
the `Variable` converter with `?`; any other tag is `UnexpectRule`. -/
def Path.tryFrom (p : Pair) : RResult Path :=
  if p.rule = Rule.segment then
    match p.children with
    | [] => .abort
    | c :: _ => .ok (.Segment c.text)
  else if p.rule = Rule.var then
    match Variable.tryFrom p with
    | .ok v => .ok (.Variable v.name v.ty)
    | .err e => .err e
    | .abort => .abort
  else
    .err .UnexpectRule

/-- `impl_string_type!(RequestType, Rule::request_type, ...)`
(src/lib.rs lines 195-215): guard on the tag, wrap the text. -/
def RequestType.tryFrom (p : Pair) : RResult RequestType :=
  if p.rule = Rule.request_type then
    .ok ⟨p.text⟩
  else
    .err .UnexpectRule

/-- `impl_string_type!(ResponseType, Rule::response_type, ...)`
(src/lib.rs lines 195-215): guard on the tag, wrap the text. -/
def ResponseType.tryFrom (p : Pair) : RResult ResponseType :=
  if p.rule = Rule.response_type then
    .ok ⟨p.text⟩
  else
    .err .UnexpectRule

/-- `collect::<Result<Vec<_>, _>>()` over an iterator of conversion
outcomes: stop at the first `Err`; a panicking element aborts. -/
def collectR {α : Type} : List (RResult α) → RResult (List α)
  | [] => .ok []
  | .ok a :: rest =>
    match collectR rest with
    | .ok as => .ok (a :: as)
    | .err e => .err e
    | .abort => .abort
  | .err e :: _ => .err e
  | .abort :: _ => .abort

/-- `impl TryFrom<Pair> for Endpoint` (src/lib.rs lines 34-75): guard on
the `endpoint` tag; pull the method node, the path group and the
query-params group in order (`next().unwrap()` panics when a group is
missing, and the collected path/query conversion results are `.unwrap()`ed,
so a conversion `Err` there panics); then the probe-and-fallback trailing
clause: if the next node converts as `RequestType` it is consumed and the
following node (if any) is best-effort converted as `ResponseType`;
otherwise `request_type` is `None` and that same node is best-effort
converted as `ResponseType` (`pair.and_then(|v| v.try_into().ok())`). -/
def Endpoint.tryFrom (p : Pair) : RResult Endpoint :=
  if p.rule = Rule.endpoint then
    match p.children with
    | [] => .abort
    | mNode :: rest1 =>
      match Method.tryFrom mNode with
      | .err e => .err e
      | .abort => .abort
      | .ok method =>
        match rest1 with
        | [] => .abort
        | pNode :: rest2 =>
          match collectR (pNode.children.map Path.tryFrom) with
          | .err _ => .abort
          | .abort => .abort
          | .ok path =>
            match rest2 with
            | [] => .abort
            | qNode :: rest3 =>
              match collectR (qNode.children.map Variable.tryFrom) with
              | .err _ => .abort
              | .abort => .abort
              | .ok query_params =>
                match rest3 with
                | [] => .ok ⟨method, path, query_params, none, none⟩
                | x :: rest4 =>
                  match RequestType.tryFrom x with
                  | .ok rq =>
                    let res : Option String :=
                      match rest4 with
                      | [] => none
                      | y :: _ =>
                        match ResponseType.tryFrom y with
                        | .ok rs => some rs.s
                        | _ => none
                    .ok ⟨method, path, query_params, some rq.s, res⟩
                  | .err _ =>
                    let res : Option String :=
                      match ResponseType.tryFrom x with
                      | .ok rs => some rs.s
                      | _ => none
                    .ok ⟨method, path, query_params, none, res⟩
                  | .abort => .abort
  else
    .err .UnexpectRule

/-! ## The syntax stage (Rule Tree Producer)

`grammar.pest` is not among the available sources; the definitions below
are modelled from the specification's grammar (§4.1) and its scenarios.
Two modelling judgments, both forced by the repository's own tests:
the `variable` rule is `identifier ":" variable_type` without braces
(the test parses `Name:string` under `Rule::variable`, and query
parameters are written `?type:string` without braces), the braces
belonging to the path component; and the query-params group node is
present in the `endpoint` node's children even when the `?...` clause is
absent (the `Endpoint` converter unconditionally reads a third group, and
the test without query params still finds `RQ`/`RS` in the right slots).
Per §7 the `variable_type` token is any identifier-shaped token (that is
what makes `UnsupportedType` reachable), and unmatched trailing input is
ignored (pest's `parse` does not require end-of-input). -/

/-- Modelled from the spec: identifier-shaped characters for the
`segment` / `identifier` / `variable_type` / `request_type` /
`response_type` tokens (letters, digits, underscore). -/
def isIdentChar (c : Char) : Bool := c.isAlphanum || c == '_'

/-- Modelled from the spec: read a maximal nonempty identifier-shaped
token from the front of the input. -/
def parseIdent (cs : List Char) : Option (String × List Char) :=
  let tok := cs.takeWhile isIdentChar
  if tok.isEmpty then none
  else some (String.mk tok, cs.dropWhile isIdentChar)

/-- Modelled from the spec: consume at least one whitespace character
(whitespace separates the method, the path+query part and the trailing
type clause). -/
def parseSpaces1 (cs : List Char) : Option (List Char) :=
  match cs with
  | c :: rest => if c.isWhitespace then some (rest.dropWhile Char.isWhitespace) else none
  | [] => none

/-- Modelled from the spec: the four method literals, matched
case-insensitively. -/
def methodLits : List String := ["GET", "POST", "PUT", "DELETE"]

/-- Modelled from the spec: the `method` rule — an identifier token whose
uppercasing is one of the four verbs; the node wraps the token verbatim as
an inner child (the converter reads `into_inner().next()`). -/
def parseMethod (cs : List Char) : Option (Pair × List Char) :=
  match parseIdent cs with
  | none => none
  | some (w, r) =>
    if toUpperStr w ∈ methodLits then
      some (Pair.mk .method "" [Pair.mk .ident w []], r)
    else none

/-- Modelled from the spec: expect one literal character at the front of
the input and consume it. -/
def expectChar (c : Char) (cs : List Char) : Option (List Char) :=
  match cs with
  | d :: r => if d = c then some r else none
  | [] => none

/-- Modelled from the spec: the `variable` rule body
`identifier ":" variable_type`, producing a `variable` node with the name
token and the type token as children. -/
def parseVarBody (cs : List Char) : Option (Pair × List Char) :=
  match parseIdent cs with
  | none => none
  | some (nm, r1) =>
    match expectChar ':' r1 with
    | none => none
    | some r2 =>
      match parseIdent r2 with
      | none => none
      | some (ty, r3) =>
        some (Pair.mk .var "" [Pair.mk .ident nm [], Pair.mk .variable_type ty []], r3)

/-- Modelled from the spec: one path component `"/" (segment | variable)`
— after the separator, a brace-delimited variable or a bare segment (the
segment node wraps its token as an inner child, as the converter reads
`into_inner().next()`). -/
def parsePathElem (cs : List Char) : Option (Pair × List Char) :=
  match expectChar '/' cs with
  | none => none
  | some r0 =>
    match expectChar '\x7b' r0 with
    | some r1 =>
      match parseVarBody r1 with
      | none => none
      | some (v, r2) =>
        match expectChar '\x7d' r2 with
        | none => none
        | some r3 => some (v, r3)
    | none =>
      match parseIdent r0 with
      | none => none
      | some (seg, r2) => some (Pair.mk .segment "" [Pair.mk .ident seg []], r2)

/-- Modelled from the spec: the repetition part of
`path = ("/" (segment | variable))+`, with explicit fuel (each iteration
consumes at least the separator, so fuel `cs.length` never runs short). -/
def parsePathLoop : Nat → List Char → List Pair × List Char
  | 0, cs => ([], cs)
  | Nat.succ fuel, cs =>
    match parsePathElem cs with
    | none => ([], cs)
    | some (p, rest) =>
      let (ps, r) := parsePathLoop fuel rest
      (p :: ps, r)

/-- Modelled from the spec: the `path` rule — at least one component,
then greedily more. -/
def parsePath (cs : List Char) : Option (Pair × List Char) :=
  match parsePathElem cs with
  | none => none
  | some (p, rest) =>
    let (ps, r) := parsePathLoop rest.length rest
    some (Pair.mk .path "" (p :: ps), r)

/-- Modelled from the spec: the repetition part of
`query_params = "?" variable ("&" variable)*`, with explicit fuel; when
`&` is not followed by a well-formed variable the star stops with the `&`
unconsumed (PEG backtracking). -/
def parseQueryLoop : Nat → List Char → List Pair × List Char
  | 0, cs => ([], cs)
  | Nat.succ fuel, cs =>
    match expectChar '&' cs with
    | none => ([], cs)
    | some r1 =>
      match parseVarBody r1 with
      | none => ([], cs)
      | some (v, r2) =>
        let (vs, r) := parseQueryLoop fuel r2
        (v :: vs, r)

/-- Modelled from the spec: the optional `query_params` clause.  The
group node is always produced (the `Endpoint` converter unconditionally
consumes it); its children are empty when the clause is absent or does
not parse. -/
def parseQuery (cs : List Char) : Pair × List Char :=
  match expectChar '?' cs with
  | none => (Pair.mk .query_params "" [], cs)
  | some r1 =>
    match parseVarBody r1 with
    | none => (Pair.mk .query_params "" [], cs)
    | some (v, r2) =>
      let (vs, r3) := parseQueryLoop r2.length r2
      (Pair.mk .query_params "" (v :: vs), r3)

/-- Modelled from the spec: the optional trailing clause
`request_type "->" response_type`, preceded by whitespace, with optional
whitespace around the arrow; all-or-nothing — any failure yields no
trailing nodes (and the unmatched remainder of the input is ignored, as
pest does not require end-of-input). -/
def parseTrailing (cs : List Char) : List Pair :=
  match parseSpaces1 cs with
  | none => []
  | some r1 =>
    match parseIdent r1 with
    | none => []
    | some (rq, r2) =>
      match expectChar '-' (r2.dropWhile Char.isWhitespace) with
      | none => []
      | some r3 =>
        match expectChar '>' r3 with
        | none => []
        | some r4 =>
          match parseIdent (r4.dropWhile Char.isWhitespace) with
          | none => []
          | some (rs, _) =>
            [Pair.mk .request_type rq [], Pair.mk .response_type rs []]

/-- Modelled from the spec: the whole `endpoint` rule —
`method SP path query_params? (request_type "->" response_type)?` —
producing the `endpoint` root node, or `none` for a syntax error. -/
def parseEndpointSyntax (s : String) : Option Pair :=
  match parseMethod s.data with
  | none => none
  | some (m, r1) =>
    match parseSpaces1 r1 with
    | none => none
    | some r2 =>
      match parsePath r2 with
      | none => none
      | some (pa, r3) =>
        match parseQuery r3 with
        | (qp, r4) => some (Pair.mk .endpoint "" ([m, pa, qp] ++ parseTrailing r4))

/-- `EndpointParser::parse_endpoint` (src/lib.rs lines 11-21): run the
grammar (a failure becomes the wrapped `PestError`), check the root is an
`endpoint` node (anything else would be `panic!("unreachable")`), and
convert. -/
def parse_endpoint (s : String) : RResult Endpoint :=
  match parseEndpointSyntax s with
  | none => .err .PestError
  | some t => if t.rule = Rule.endpoint then Endpoint.tryFrom t else .abort

/-- The canonical (lowercase) source token of each `VariableType`, as
listed in the converter's match. -/
def VariableType.token : VariableType → String
  | .string => "string"
  | .short => "short"
  | .int => "int"
  | .long => "long"
  | .float => "float"
  | .double => "double"
  | .bool => "bool"

/-- The seven recognized variable-type tokens. -/
def typeTokens : List String :=
  ["string", "short", "int", "long", "float", "double", "bool"]

/-- The method corresponding to an (uppercased) method literal, if any. -/
def methodOfLit (s : String) : Option Method :=
  if s = "GET" then some .GET
  else if s = "POST" then some .POST
  else if s = "PUT" then some .PUT
  else if s = "DELETE" then some .DELETE
  else none

/-- The source text of a `variable` node body, `name:type`, rebuilt from
its children's verbatim texts. -/
def varRender (p : Pair) : List Char :=
  match p.children with
  | [n, t] => n.text.data ++ ':' :: t.text.data
  | _ => []

/-- The source text of the tail of a query clause: each further variable
preceded by `&`. -/
def queryTailRender : List Pair → List Char
  | [] => []
  | v :: vs => '&' :: varRender v ++ queryTailRender vs

/-- The source text of a whole query clause: empty when absent, else
`?` followed by the variables separated by `&`, in list order. -/
def queryRender : List Pair → List Char
  | [] => []
  | v :: vs => '?' :: varRender v ++ queryTailRender vs

/-- The source text of one path component: `/` then the bare segment
token, or `/` then the brace-delimited variable body. -/
def pathElemRender (p : Pair) : List Char :=
  if p.rule = Rule.segment then
    match p.children with
    | [c] => '/' :: c.text.data
    | _ => []
  else
    '/' :: '\x7b' :: varRender p ++ ['\x7d']

/-- The source text of a path component list, in list order. -/
def pathRender : List Pair → List Char
  | [] => []
  | p :: ps => pathElemRender p ++ pathRender ps

/-! ## Helper lemmas -/

theorem collectR_ok_length {α : Type} (l : List (RResult α)) (v : List α)
    (h : collectR l = .ok v) : v.length = l.length := by
  induction l generalizing v with
  | nil => simp only [collectR] at h; cases h; rfl
  | cons a rest ih =>
    match a with
    | .ok b =>
      simp only [collectR] at h
      cases hc : collectR rest with
      | ok bs => rw [hc] at h; cases h; simp [ih bs hc]
      | err e => rw [hc] at h; cases h
      | abort => rw [hc] at h; cases h
    | .err e => simp only [collectR] at h; cases h
    | .abort => simp only [collectR] at h; cases h

theorem collectR_map_get {α β : Type} (f : α → RResult β) (l : List α) (v : List β)
    (h : collectR (l.map f) = .ok v) :
    ∀ (i : Nat) (hi : i < l.length) (hv : i < v.length),
      f (l.get ⟨i, hi⟩) = .ok (v.get ⟨i, hv⟩) := by
  induction l generalizing v with
  | nil => intro i hi; simp at hi
  | cons a rest ih =>
    intro i hi hv
    simp only [List.map] at h
    match ha : f a with
    | .ok b =>
      rw [ha] at h
      simp only [collectR] at h
      cases hc : collectR (rest.map f) with
      | ok bs =>
        rw [hc] at h
        cases h
        match i with
        | 0 => simpa using ha
        | Nat.succ j =>
          simp only [List.get]
          exact ih bs hc j (Nat.lt_of_succ_lt_succ hi) (Nat.lt_of_succ_lt_succ hv)
      | err e => rw [hc] at h; cases h
      | abort => rw [hc] at h; cases h
    | .err e => rw [ha] at h; simp only [collectR] at h; cases h
    | .abort => rw [ha] at h; simp only [collectR] at h; cases h

theorem takeWhile_split {P : Char → Bool} (w rest : List Char)
    (hw : ∀ c ∈ w, P c = true)
    (hb : ∀ c, rest.head? = some c → P c = false) :
    (w ++ rest).takeWhile P = w ∧ (w ++ rest).dropWhile P = rest := by
  revert hw
  induction w with
  | nil =>
    intro _
    simp only [List.nil_append]
    cases rest with
    | nil => simp
    | cons c r =>
      have hc : P c = false := hb c rfl
      constructor
      · simp [List.takeWhile_cons, hc]
      · simp [List.dropWhile_cons, hc]
  | cons a w ih =>
    intro hw
    have ha : P a = true := hw a (List.mem_cons_self a w)
    have ih' := ih (fun c hc => hw c (List.mem_cons_of_mem a hc))
    constructor
    · simp [List.takeWhile_cons, ha, ih'.1]
    · simp [List.dropWhile_cons, ha, ih'.2]

theorem parseIdent_boundary (w rest : List Char) (hne : w ≠ [])
    (hw : ∀ c ∈ w, isIdentChar c = true)
    (hb : ∀ c, rest.head? = some c → isIdentChar c = false) :
    parseIdent (w ++ rest) = some (String.mk w, rest) := by
  have hs := takeWhile_split w rest hw hb
  simp [parseIdent, hs.1, hs.2, hne]

theorem parseIdent_inv (cs : List Char) (tok : String) (rest : List Char)
    (h : parseIdent cs = some (tok, rest)) :
    ∃ l, tok = String.mk l ∧ cs = l ++ rest ∧ l ≠ [] ∧
      ∀ c ∈ l, isIdentChar c = true := by
  unfold parseIdent at h
  by_cases he : (cs.takeWhile isIdentChar).isEmpty
  · rw [if_pos he] at h; cases h
  · rw [if_neg he] at h
    cases h
    refine ⟨cs.takeWhile isIdentChar, rfl, ?_, ?_, ?_⟩
    · exact (List.takeWhile_append_dropWhile (p := isIdentChar) (l := cs)).symm
    · simpa [List.isEmpty_iff] using he
    · intro c hc
      exact List.mem_takeWhile_imp hc

theorem endpoint_tryFrom_parts (tx : String) (m pa qp : Pair) (tr : List Pair)
    (e : Endpoint)
    (h : Endpoint.tryFrom (Pair.mk Rule.endpoint tx (m :: pa :: qp :: tr)) = .ok e) :
    Method.tryFrom m = .ok e.method ∧
    collectR (pa.children.map Path.tryFrom) = .ok e.path ∧
    collectR (qp.children.map Variable.tryFrom) = .ok e.query_params := by
  obtain ⟨pr, ptx, pcs⟩ := pa
  obtain ⟨qr, qtx, qcs⟩ := qp
  unfold Endpoint.tryFrom at h
  simp only [Pair.rule, Pair.children, if_true] at h
  cases hm : Method.tryFrom m with
  | err e' => simp only [hm] at h; cases h
  | abort => simp only [hm] at h; cases h
  | ok mv =>
    simp only [hm] at h
    cases hp : collectR (List.map Path.tryFrom pcs) with
    | err e' => simp only [hp] at h; cases h
    | abort => simp only [hp] at h; cases h
    | ok pv =>
      simp only [hp] at h
      cases hq : collectR (List.map Variable.tryFrom qcs) with
      | err e' => simp only [hq] at h; cases h
      | abort => simp only [hq] at h; cases h
      | ok qv =>
        simp only [hq] at h
        cases tr with
        | nil =>
          cases h
          exact ⟨rfl, hp, hq⟩
        | cons x tr' =>
          cases hx : RequestType.tryFrom x with
          | ok rq =>
            simp only [hx] at h
            cases h
            exact ⟨rfl, hp, hq⟩
          | err e' =>
            simp only [hx] at h
            cases h
            exact ⟨rfl, hp, hq⟩
          | abort => simp only [hx] at h; cases h

/-! ## Claim theorems -/

/-- C1: the claim says that on `GET /x/{n:integer}` the `UnsupportType`
error is returned to the caller, and that in general every converter
returns the first error unchanged up the call chain with no panic in
correct usage.  The code violates this: `Variable`'s converter does
return `UnsupportType` (second and third conjuncts), but
`Endpoint::try_from` calls `.unwrap()` on the collected path conversion
results, so `parse_endpoint` on this input panics (modelled `abort`,
first conjunct) instead of returning the error. -/
theorem c1_unsupport_type_aborts :
    parse_endpoint "GET /x/{n:integer}" = .abort ∧
    VariableType.tryFrom (Pair.mk .variable_type "integer" []) = .err .UnsupportType ∧
    Variable.tryFrom (Pair.mk .var ""
      [Pair.mk .ident "n" [], Pair.mk .variable_type "integer" []]) = .err .UnsupportType := by
  refine ⟨?_, ?_, ?_⟩ <;> rfl

/-- C4: parsing the exact example string yields the endpoint with method
GET, path `[Segment "register", Variable "id" string]`, query parameters
`[("type", string), ("order", string)]`, request type `RQ` and response
type `RS`. -/
theorem c4_round_trip_example :
    parse_endpoint "GET /register/{id:string}?type:string&order:string RQ -> RS" =
      .ok ⟨.GET, [.Segment "register", .Variable "id" .string],
        [⟨"type", .string⟩, ⟨"order", .string⟩], some "RQ", some "RS"⟩ := by
  rfl

/-- C10: variable names and segment literals are carried into the model
verbatim: a successful `Variable` conversion returns exactly the name
child's text, and a successful `segment` conversion returns exactly the
inner token's text. -/
theorem c10_names_verbatim :
    (∀ (tx : String) (n t : Pair) (rest : List Pair) (v : Variable),
        Variable.tryFrom (Pair.mk .var tx (n :: t :: rest)) = .ok v → v.name = n.text) ∧
    (∀ (tx : String) (c : Pair) (rest : List Pair) (pe : Path),
        Path.tryFrom (Pair.mk .segment tx (c :: rest)) = .ok pe → pe = .Segment c.text) := by
  constructor
  · intro tx n t rest v h
    unfold Variable.tryFrom at h
    simp only [Pair.rule, Pair.children, if_true] at h
    cases ht : VariableType.tryFrom t with
    | ok tv => simp only [ht] at h; cases h; rfl
    | err e => simp only [ht] at h; cases h
    | abort => simp only [ht] at h; cases h
  · intro tx c rest pe h
    unfold Path.tryFrom at h
    simp only [Pair.rule, Pair.children, if_true] at h
    cases h
    rfl

/-- C10 witness: conversion of a concrete variable node with a
mixed-case name and a concrete segment node, both texts preserved
character for character. -/
theorem c10_names_verbatim_witness :
    (Variable.mk "MyName_X" .int).name = (Pair.mk Rule.ident "MyName_X" []).text ∧
    Path.Segment "LiT_3" = .Segment (Pair.mk Rule.ident "LiT_3" []).text := by
  constructor
  · exact c10_names_verbatim.1 "" (Pair.mk .ident "MyName_X" [])
      (Pair.mk .variable_type "INT" []) [] ⟨"MyName_X", .int⟩ (by rfl)
  · exact c10_names_verbatim.2 "" (Pair.mk .ident "LiT_3" []) []
      (.Segment "LiT_3") (by rfl)

/-- C2 counterexample: an `endpoint` node whose first trailing child is
tagged `response_type` (text `RS`).  That node does not convert as
`RequestType` (first conjunct), so by the claim both `request_type` and
`response_type` would have to be `None` and the node left unconsumed;
but the converter consumes it through the best-effort `ResponseType`
probe and produces `response_type = Some "RS"` (second conjunct). -/
theorem c2_counterexample :
    RequestType.tryFrom (Pair.mk .response_type "RS" []) = .err .UnexpectRule ∧
    Endpoint.tryFrom (Pair.mk .endpoint ""
      [Pair.mk .method "" [Pair.mk .ident "GET" []],
       Pair.mk .path "" [], Pair.mk .query_params "" [],
       Pair.mk .response_type "RS" []]) =
      .ok ⟨.GET, [], [], none, some "RS"⟩ := by
  exact ⟨rfl, rfl⟩

/-- C2 (amended): if the first trailing node does not convert as
`RequestType`, the endpoint's `request_type` is `None` — but the node is
not left untouched: it is probed once more as a `ResponseType`, so
`response_type` is `Some` of its text when it is tagged `response_type`
and `None` otherwise; no node after it is consumed. -/
theorem c2_first_trailing_fallback (tx : String) (m pa qp x : Pair) (tr : List Pair)
    (mv : Method) (pv : List Path) (qv : List Variable) (er : ParseError)
    (hm : Method.tryFrom m = .ok mv)
    (hp : collectR (pa.children.map Path.tryFrom) = .ok pv)
    (hq : collectR (qp.children.map Variable.tryFrom) = .ok qv)
    (hx : RequestType.tryFrom x = .err er) :
    Endpoint.tryFrom (Pair.mk .endpoint tx (m :: pa :: qp :: x :: tr)) =
      .ok ⟨mv, pv, qv, none,
        if x.rule = Rule.response_type then some x.text else none⟩ := by
  obtain ⟨pr, ptx, pcs⟩ := pa
  obtain ⟨qr, qtx, qcs⟩ := qp
  obtain ⟨xr, xtx, xcs⟩ := x
  simp only [Pair.children] at hp hq
  unfold Endpoint.tryFrom
  simp only [Pair.rule, Pair.children, if_true]
  simp only [hm, hp, hq, hx]
  unfold ResponseType.tryFrom
  by_cases hr : xr = Rule.response_type
  · simp [Pair.rule, Pair.text, hr]
  · simp [Pair.rule, Pair.text, hr]

/-- C2 amended witness: the first trailing node is an `ident`-tagged
node, which fails `RequestType` conversion and is not a `response_type`
node, so both optional fields are `None`. -/
theorem c2_first_trailing_fallback_witness :
    RequestType.tryFrom (Pair.mk .ident "zz" []) = .err .UnexpectRule ∧
    Endpoint.tryFrom (Pair.mk .endpoint ""
      [Pair.mk .method "" [Pair.mk .ident "GET" []],
       Pair.mk .path "" [], Pair.mk .query_params "" [],
       Pair.mk .ident "zz" []]) =
      .ok ⟨.GET, [], [], none,
        if (Pair.mk Rule.ident "zz" ([] : List Pair)).rule = Rule.response_type
        then some (Pair.mk Rule.ident "zz" ([] : List Pair)).text else none⟩ := by
  refine ⟨by rfl, ?_⟩
  exact c2_first_trailing_fallback "" (Pair.mk .method "" [Pair.mk .ident "GET" []])
    (Pair.mk .path "" []) (Pair.mk .query_params "" []) (Pair.mk .ident "zz" []) []
    .GET [] [] .UnexpectRule (by rfl) (by rfl) (by rfl) (by rfl)

/-- C3: when the trailing request-type node converts successfully and
the following response-type node is absent or fails to convert, the
endpoint has `request_type` populated and `response_type = None`, with
no error raised (the converter still returns `ok`). -/
theorem c3_response_failure_degrades (tx : String) (m pa qp x : Pair) (tr : List Pair)
    (mv : Method) (pv : List Path) (qv : List Variable) (rq : RequestType)
    (hm : Method.tryFrom m = .ok mv)
    (hp : collectR (pa.children.map Path.tryFrom) = .ok pv)
    (hq : collectR (qp.children.map Variable.tryFrom) = .ok qv)
    (hx : RequestType.tryFrom x = .ok rq)
    (htr : tr = [] ∨ ∃ y tr' er, tr = y :: tr' ∧ ResponseType.tryFrom y = .err er) :
    Endpoint.tryFrom (Pair.mk .endpoint tx (m :: pa :: qp :: x :: tr)) =
      .ok ⟨mv, pv, qv, some rq.s, none⟩ := by
  obtain ⟨pr, ptx, pcs⟩ := pa
  obtain ⟨qr, qtx, qcs⟩ := qp
  simp only [Pair.children] at hp hq
  unfold Endpoint.tryFrom
  simp only [Pair.rule, Pair.children, if_true]
  simp only [hm, hp, hq, hx]
  rcases htr with h0 | ⟨y, tr', er, htr', hy⟩
  · subst h0; rfl
  · subst htr'; simp only [hy]

/-- C3 witness: `endpoint` node with a valid request-type node followed
by a node tagged `ident` (which fails `ResponseType` conversion):
`request_type = Some "RQ"`, `response_type = None`, result is `ok`. -/
theorem c3_response_failure_degrades_witness :
    RequestType.tryFrom (Pair.mk .request_type "RQ" []) = .ok ⟨"RQ"⟩ ∧
    ResponseType.tryFrom (Pair.mk .ident "junk" []) = .err .UnexpectRule ∧
    Endpoint.tryFrom (Pair.mk .endpoint ""
      [Pair.mk .method "" [Pair.mk .ident "GET" []],
       Pair.mk .path "" [], Pair.mk .query_params "" [],
       Pair.mk .request_type "RQ" [], Pair.mk .ident "junk" []]) =
      .ok ⟨.GET, [], [], some "RQ", none⟩ := by
  refine ⟨by rfl, by rfl, ?_⟩
  exact c3_response_failure_degrades "" (Pair.mk .method "" [Pair.mk .ident "GET" []])
    (Pair.mk .path "" []) (Pair.mk .query_params "" [])
    (Pair.mk .request_type "RQ" []) [Pair.mk .ident "junk" []]
    .GET [] [] ⟨"RQ"⟩ (by rfl) (by rfl) (by rfl) (by rfl)
    (Or.inr ⟨Pair.mk .ident "junk" [], [], .UnexpectRule, rfl, by rfl⟩)

/-- C5: for a node tagged `variable_type`, conversion succeeds with the
matching enum value exactly when the lowercased text is one of the seven
recognized tokens, and fails with `UnsupportType` otherwise; and every
`variable_type` node the syntax stage produces carries a nonempty
identifier-shaped token (non-identifier text is rejected at the syntax
stage, before conversion). -/
theorem c5_variable_type_tokens :
    (∀ p : Pair, p.rule = Rule.variable_type →
      (∀ v : VariableType,
        VariableType.tryFrom p = .ok v ↔ toLowerStr p.text = v.token) ∧
      (toLowerStr p.text ∉ typeTokens →
        VariableType.tryFrom p = .err .UnsupportType)) ∧
    (∀ (cs : List Char) (p : Pair) (rest : List Char),
      parseVarBody cs = some (p, rest) →
      ∃ n t, p.children = [Pair.mk .ident n [], Pair.mk .variable_type t []] ∧
        t.data ≠ [] ∧ ∀ c ∈ t.data, isIdentChar c = true) := by
  constructor
  · intro p h
    constructor
    · intro v
      constructor
      · intro hv
        unfold VariableType.tryFrom at hv
        rw [if_pos h] at hv
        split at hv
        all_goals rename_i heq
        all_goals first
          | (cases hv; rw [heq]; rfl)
          | cases hv
      · intro htok
        unfold VariableType.tryFrom
        rw [if_pos h, htok]
        cases v <;> rfl
    · intro hnot
      unfold VariableType.tryFrom
      rw [if_pos h]
      split
      all_goals rename_i heq
      all_goals first
        | (exact absurd (by rw [heq]; simp [typeTokens]) hnot)
        | rfl
  · intro cs p rest h
    unfold parseVarBody at h
    cases h1 : parseIdent cs with
    | none => simp only [h1] at h; cases h
    | some pr =>
      obtain ⟨nm, r1⟩ := pr
      simp only [h1] at h
      cases hc : expectChar ':' r1 with
      | none => simp only [hc] at h; cases h
      | some r2 =>
        simp only [hc] at h
        cases h2 : parseIdent r2 with
        | none => simp only [h2] at h; cases h
        | some pr2 =>
          obtain ⟨ty, r3⟩ := pr2
          simp only [h2] at h
          cases h
          obtain ⟨l, hl, _, hne, hmem⟩ := parseIdent_inv _ _ _ h2
          exact ⟨nm, ty, rfl, by simp [hl, hne], by simpa [hl] using hmem⟩

/-- C5 witness: the mixed-case token `Long` on a `variable_type` node
converts to `long`; the identifier `integer` is not one of the seven and
converts to `UnsupportType`; and the syntax stage produces an
identifier-shaped type token for the concrete variable body
`id:integer`. -/
theorem c5_variable_type_tokens_witness :
    VariableType.tryFrom (Pair.mk .variable_type "Long" []) = .ok .long ∧
    VariableType.tryFrom (Pair.mk .variable_type "integer" []) = .err .UnsupportType ∧
    ∃ n t,
      (Pair.mk Rule.var "" [Pair.mk .ident "id" [], Pair.mk .variable_type "integer" []]).children =
        [Pair.mk .ident n [], Pair.mk .variable_type t []] ∧
      t.data ≠ [] ∧ ∀ c ∈ t.data, isIdentChar c = true := by
  refine ⟨?_, ?_, ?_⟩
  · exact ((c5_variable_type_tokens.1 (Pair.mk .variable_type "Long" []) rfl).1 .long).mpr
      (by rfl)
  · exact (c5_variable_type_tokens.1 (Pair.mk .variable_type "integer" []) rfl).2
      (by decide)
  · exact c5_variable_type_tokens.2 ("id:integer".data)
      (Pair.mk Rule.var "" [Pair.mk .ident "id" [], Pair.mk .variable_type "integer" []])
      [] (by rfl)

theorem expectChar_some (c : Char) (cs r : List Char)
    (h : expectChar c cs = some r) : cs = c :: r := by
  cases cs with
  | nil => simp only [expectChar] at h; cases h
  | cons d rest =>
    simp only [expectChar] at h
    by_cases hd : d = c
    · rw [if_pos hd] at h
      cases h
      rw [hd]
    · rw [if_neg hd] at h
      cases h

theorem parseSpaces1_inv (cs r : List Char) (h : parseSpaces1 cs = some r) :
    ∃ sp, cs = sp ++ r ∧ sp ≠ [] ∧ ∀ c ∈ sp, c.isWhitespace = true := by
  cases cs with
  | nil => simp only [parseSpaces1] at h; cases h
  | cons c rest =>
    simp only [parseSpaces1] at h
    by_cases hw : c.isWhitespace
    · rw [if_pos hw] at h
      cases h
      refine ⟨c :: rest.takeWhile Char.isWhitespace, ?_, by simp, ?_⟩
      · simp [List.takeWhile_append_dropWhile]
      · intro d hd
        rcases List.mem_cons.mp hd with h1 | h2
        · rw [h1]; exact hw
        · exact List.mem_takeWhile_imp h2
    · rw [if_neg hw] at h
      cases h

theorem parseVarBody_inv (cs : List Char) (v : Pair) (rest : List Char)
    (h : parseVarBody cs = some (v, rest)) :
    ∃ n t : String,
      v = Pair.mk .var "" [Pair.mk .ident n [], Pair.mk .variable_type t []] ∧
      cs = varRender v ++ rest ∧
      n.data ≠ [] ∧ t.data ≠ [] ∧
      (∀ c ∈ n.data, isIdentChar c = true) ∧ (∀ c ∈ t.data, isIdentChar c = true) := by
  unfold parseVarBody at h
  cases h1 : parseIdent cs with
  | none => simp only [h1] at h; cases h
  | some pr =>
    obtain ⟨nm, r1⟩ := pr
    simp only [h1] at h
    cases hc : expectChar ':' r1 with
    | none => simp only [hc] at h; cases h
    | some r2 =>
      simp only [hc] at h
      cases h2 : parseIdent r2 with
      | none => simp only [h2] at h; cases h
      | some pr2 =>
        obtain ⟨ty, r3⟩ := pr2
        simp only [h2] at h
        cases h
        obtain ⟨l1, hl1, hcs1, hne1, hid1⟩ := parseIdent_inv _ _ _ h1
        obtain ⟨l2, hl2, hcs2, hne2, hid2⟩ := parseIdent_inv _ _ _ h2
        have hr1 : r1 = ':' :: r2 := expectChar_some _ _ _ hc
        refine ⟨nm, ty, rfl, ?_, ?_, ?_, ?_, ?_⟩
        · rw [hcs1, hr1, hcs2]
          simp [varRender, Pair.children, Pair.text, hl1, hl2]
        · simpa [hl1] using hne1
        · simpa [hl2] using hne2
        · simpa [hl1] using hid1
        · simpa [hl2] using hid2

theorem parsePathElem_inv (cs : List Char) (p : Pair) (rest : List Char)
    (h : parsePathElem cs = some (p, rest)) :
    cs = pathElemRender p ++ rest ∧
    ((∃ seg : String, p = Pair.mk .segment "" [Pair.mk .ident seg []]) ∨
     (∃ n t : String,
        p = Pair.mk .var "" [Pair.mk .ident n [], Pair.mk .variable_type t []])) := by
  unfold parsePathElem at h
  cases h0 : expectChar '/' cs with
  | none => simp only [h0] at h; cases h
  | some r0 =>
    simp only [h0] at h
    have hcs : cs = '/' :: r0 := expectChar_some _ _ _ h0
    cases h1 : expectChar '\x7b' r0 with
    | some r1 =>
      simp only [h1] at h
      have hr0 : r0 = '\x7b' :: r1 := expectChar_some _ _ _ h1
      cases h2 : parseVarBody r1 with
      | none => simp only [h2] at h; cases h
      | some pr =>
        obtain ⟨v, r2⟩ := pr
        simp only [h2] at h
        cases h3 : expectChar '\x7d' r2 with
        | none => simp only [h3] at h; cases h
        | some r3 =>
          simp only [h3] at h
          cases h
          have hr2 := expectChar_some _ _ _ h3
          obtain ⟨n, t, hv, hr1, _, _, _, _⟩ := parseVarBody_inv _ _ _ h2
          constructor
          · rw [hcs, hr0, hr1, hr2, hv]
            simp [pathElemRender, Pair.rule, varRender, Pair.children, Pair.text]
          · exact Or.inr ⟨n, t, hv⟩
    | none =>
      simp only [h1] at h
      cases h2 : parseIdent r0 with
      | none => simp only [h2] at h; cases h
      | some pr =>
        obtain ⟨seg, r2⟩ := pr
        simp only [h2] at h
        cases h
        obtain ⟨l, hl, hr0, hne, hid⟩ := parseIdent_inv _ _ _ h2
        constructor
        · rw [hcs, hr0]
          simp [pathElemRender, Pair.rule, Pair.children, Pair.text, hl]
        · exact Or.inl ⟨seg, rfl⟩

theorem parsePathLoop_inv (fuel : Nat) :
    ∀ (cs : List Char) (ps : List Pair) (rest : List Char),
      parsePathLoop fuel cs = (ps, rest) →
      cs = pathRender ps ++ rest ∧
      ∀ p ∈ ps,
        (∃ seg : String, p = Pair.mk .segment "" [Pair.mk .ident seg []]) ∨
        (∃ n t : String,
          p = Pair.mk .var "" [Pair.mk .ident n [], Pair.mk .variable_type t []]) := by
  induction fuel with
  | zero =>
    intro cs ps rest h
    simp only [parsePathLoop] at h
    cases h
    exact ⟨by simp [pathRender], by simp⟩
  | succ fuel ih =>
    intro cs ps rest h
    simp only [parsePathLoop] at h
    cases he : parsePathElem cs with
    | none =>
      simp only [he] at h
      cases h
      exact ⟨by simp [pathRender], by simp⟩
    | some pr =>
      obtain ⟨p, r⟩ := pr
      simp only [he] at h
      rcases hl : parsePathLoop fuel r with ⟨ps', rest'⟩
      simp only [hl] at h
      cases h
      obtain ⟨hcs, hsh⟩ := parsePathElem_inv _ _ _ he
      obtain ⟨hr, hsh'⟩ := ih _ _ _ hl
      constructor
      · rw [hcs, hr]
        simp [pathRender, List.append_assoc]
      · intro q hq
        rcases List.mem_cons.mp hq with h1 | h2
        · exact h1 ▸ hsh
        · exact hsh' q h2

theorem parsePath_inv (cs : List Char) (pa : Pair) (rest : List Char)
    (h : parsePath cs = some (pa, rest)) :
    ∃ p ps, pa = Pair.mk .path "" (p :: ps) ∧
      cs = pathRender (p :: ps) ++ rest ∧
      ∀ q ∈ p :: ps,
        (∃ seg : String, q = Pair.mk .segment "" [Pair.mk .ident seg []]) ∨
        (∃ n t : String,
          q = Pair.mk .var "" [Pair.mk .ident n [], Pair.mk .variable_type t []]) := by
  unfold parsePath at h
  cases he : parsePathElem cs with
  | none => simp only [he] at h; cases h
  | some pr =>
    obtain ⟨p, r⟩ := pr
    simp only [he] at h
    rcases hl : parsePathLoop r.length r with ⟨ps', rest'⟩
    simp only [hl] at h
    cases h
    obtain ⟨hcs, hsh⟩ := parsePathElem_inv _ _ _ he
    obtain ⟨hr, hsh'⟩ := parsePathLoop_inv _ _ _ _ hl
    refine ⟨p, ps', rfl, ?_, ?_⟩
    · rw [hcs, hr]
      simp [pathRender, List.append_assoc]
    · intro q hq
      rcases List.mem_cons.mp hq with h1 | h2
      · exact h1 ▸ hsh
      · exact hsh' q h2

theorem parseQueryLoop_inv (fuel : Nat) :
    ∀ (cs : List Char) (vs : List Pair) (rest : List Char),
      parseQueryLoop fuel cs = (vs, rest) →
      cs = queryTailRender vs ++ rest ∧
      ∀ v ∈ vs, ∃ n t : String,
        v = Pair.mk .var "" [Pair.mk .ident n [], Pair.mk .variable_type t []] := by
  induction fuel with
  | zero =>
    intro cs vs rest h
    simp only [parseQueryLoop] at h
    cases h
    exact ⟨by simp [queryTailRender], by simp⟩
  | succ fuel ih =>
    intro cs vs rest h
    simp only [parseQueryLoop] at h
    cases ha : expectChar '&' cs with
    | none =>
      simp only [ha] at h
      cases h
      exact ⟨by simp [queryTailRender], by simp⟩
    | some r1 =>
      simp only [ha] at h
      have hcs : cs = '&' :: r1 := expectChar_some _ _ _ ha
      cases hv : parseVarBody r1 with
      | none =>
        simp only [hv] at h
        cases h
        exact ⟨by simp [queryTailRender], by simp⟩
      | some pr =>
        obtain ⟨v, r2⟩ := pr
        simp only [hv] at h
        rcases hl : parseQueryLoop fuel r2 with ⟨vs', rest'⟩
        simp only [hl] at h
        cases h
        obtain ⟨n, t, hvv, hr1, _, _, _, _⟩ := parseVarBody_inv _ _ _ hv
        obtain ⟨hr2, hsh'⟩ := ih _ _ _ hl
        constructor
        · rw [hcs, hr1, hr2]
          simp [queryTailRender, List.append_assoc]
        · intro q hq
          rcases List.mem_cons.mp hq with h1 | h2
          · exact ⟨n, t, h1 ▸ hvv⟩
          · exact hsh' q h2

theorem parseQuery_inv (cs : List Char) (qp : Pair) (rest : List Char)
    (h : parseQuery cs = (qp, rest)) :
    ∃ vs, qp = Pair.mk .query_params "" vs ∧
      cs = queryRender vs ++ rest ∧
      (∀ v ∈ vs, ∃ n t : String,
        v = Pair.mk .var "" [Pair.mk .ident n [], Pair.mk .variable_type t []]) ∧
      (cs.head? ≠ some '?' → vs = [] ∧ rest = cs) := by
  unfold parseQuery at h
  cases hq : expectChar '?' cs with
  | none =>
    simp only [hq] at h
    cases h
    exact ⟨[], rfl, by simp [queryRender], by simp, fun _ => ⟨rfl, rfl⟩⟩
  | some r1 =>
    simp only [hq] at h
    have hcs : cs = '?' :: r1 := expectChar_some _ _ _ hq
    cases hv : parseVarBody r1 with
    | none =>
      simp only [hv] at h
      cases h
      exact ⟨[], rfl, by simp [queryRender], by simp, fun _ => ⟨rfl, rfl⟩⟩
    | some pr =>
      obtain ⟨v, r2⟩ := pr
      simp only [hv] at h
      rcases hl : parseQueryLoop r2.length r2 with ⟨vs', rest'⟩
      simp only [hl] at h
      cases h
      obtain ⟨n, t, hvv, hr1, _, _, _, _⟩ := parseVarBody_inv _ _ _ hv
      obtain ⟨hr2, hsh'⟩ := parseQueryLoop_inv _ _ _ _ hl
      refine ⟨v :: vs', rfl, ?_, ?_, ?_⟩
      · rw [hcs, hr1, hr2]
        simp [queryRender, List.append_assoc]
      · intro q hq'
        rcases List.mem_cons.mp hq' with h1 | h2
        · exact ⟨n, t, h1 ▸ hvv⟩
        · exact hsh' q h2
      · intro hne
        exact absurd (by rw [hcs]; rfl) hne

theorem parseMethod_inv (cs : List Char) (m : Pair) (rest : List Char)
    (h : parseMethod cs = some (m, rest)) :
    ∃ w : String, m = Pair.mk .method "" [Pair.mk .ident w []] ∧
      toUpperStr w ∈ methodLits ∧ cs = w.data ++ rest := by
  unfold parseMethod at h
  cases h1 : parseIdent cs with
  | none => simp only [h1] at h; cases h
  | some pr =>
    obtain ⟨w, r⟩ := pr
    simp only [h1] at h
    by_cases hmem : toUpperStr w ∈ methodLits
    · rw [if_pos hmem] at h
      cases h
      obtain ⟨l, hl, hcs, _, _⟩ := parseIdent_inv _ _ _ h1
      exact ⟨w, rfl, hmem, by rw [hcs, hl]⟩
    · rw [if_neg hmem] at h
      cases h

theorem ep_decomp (s : String) (t : Pair) (h : parseEndpointSyntax s = some t) :
    ∃ (m : Pair) (r1 r2 : List Char) (pa : Pair) (r3 : List Char)
      (qp : Pair) (r4 : List Char),
      parseMethod s.data = some (m, r1) ∧
      parseSpaces1 r1 = some r2 ∧
      parsePath r2 = some (pa, r3) ∧
      parseQuery r3 = (qp, r4) ∧
      t = Pair.mk .endpoint "" ([m, pa, qp] ++ parseTrailing r4) := by
  unfold parseEndpointSyntax at h
  cases h1 : parseMethod s.data with
  | none => simp only [h1] at h; cases h
  | some pr =>
    obtain ⟨m, r1⟩ := pr
    simp only [h1] at h
    cases h2 : parseSpaces1 r1 with
    | none => simp only [h2] at h; cases h
    | some r2 =>
      simp only [h2] at h
      cases h3 : parsePath r2 with
      | none => simp only [h3] at h; cases h
      | some pr3 =>
        obtain ⟨pa, r3⟩ := pr3
        simp only [h3] at h
        rcases h4 : parseQuery r3 with ⟨qp, r4⟩
        simp only [h4] at h
        cases h
        exact ⟨m, r1, r2, pa, r3, qp, r4, rfl, h2, h3, h4, rfl⟩

theorem method_tryFrom_lit (w : String) (hmem : toUpperStr w ∈ methodLits) :
    ∃ mv : Method, methodOfLit (toUpperStr w) = some mv ∧
      Method.tryFrom (Pair.mk .method "" [Pair.mk .ident w []]) = .ok mv := by
  simp only [methodLits, List.mem_cons, List.not_mem_nil, or_false] at hmem
  unfold Method.tryFrom
  simp only [Pair.rule, Pair.children, Pair.text, if_true]
  rcases hmem with h | h | h | h
  all_goals rw [h]
  · exact ⟨.GET, rfl, rfl⟩
  · exact ⟨.POST, rfl, rfl⟩
  · exact ⟨.PUT, rfl, rfl⟩
  · exact ⟨.DELETE, rfl, rfl⟩

/-- C6: for an input whose method token (the maximal identifier-shaped
prefix) uppercases to one of GET, POST, PUT, DELETE, a successful parse
yields the corresponding `Method`; for any other method token the parse
fails with the syntax-stage error (`PestError`), not a conversion
error. -/
theorem c6_method_literals (w rest : List Char)
    (hne : w ≠ []) (hid : ∀ c ∈ w, isIdentChar c = true)
    (hb : ∀ c, rest.head? = some c → isIdentChar c = false) :
    (toUpperStr (String.mk w) ∉ methodLits →
      parse_endpoint (String.mk (w ++ rest)) = .err .PestError) ∧
    (∀ e, parse_endpoint (String.mk (w ++ rest)) = .ok e →
      methodOfLit (toUpperStr (String.mk w)) = some e.method) := by
  have hpi : parseIdent (w ++ rest) = some (String.mk w, rest) :=
    parseIdent_boundary _ _ hne hid hb
  have hdata : (String.mk (w ++ rest)).data = w ++ rest := rfl
  constructor
  · intro hnot
    have hm : parseMethod (String.mk (w ++ rest)).data = none := by
      unfold parseMethod
      rw [hdata]
      simp only [hpi]
      rw [if_neg hnot]
    unfold parse_endpoint parseEndpointSyntax
    simp only [hm]
  · intro e he
    unfold parse_endpoint at he
    cases hsyn : parseEndpointSyntax (String.mk (w ++ rest)) with
    | none => simp only [hsyn] at he; cases he
    | some t =>
      simp only [hsyn] at he
      obtain ⟨m, r1, r2, pa, r3, qp, r4, hm, hsp, hp, hq, ht⟩ := ep_decomp _ _ hsyn
      by_cases hmem : toUpperStr (String.mk w) ∈ methodLits
      · have hm' : parseMethod (String.mk (w ++ rest)).data =
            some (Pair.mk .method "" [Pair.mk .ident (String.mk w) []], rest) := by
          unfold parseMethod
          rw [hdata]
          simp only [hpi]
          rw [if_pos hmem]
        rw [hm'] at hm
        cases hm
        subst ht
        simp only [Pair.rule, if_true] at he
        obtain ⟨hmc, _, _⟩ := endpoint_tryFrom_parts "" _ pa qp _ e he
        obtain ⟨mv, hlit, htf⟩ := method_tryFrom_lit (String.mk w) hmem
        rw [htf] at hmc
        cases hmc
        exact hlit
      · have hm' : parseMethod (String.mk (w ++ rest)).data = none := by
          unfold parseMethod
          rw [hdata]
          simp only [hpi]
          rw [if_neg hmem]
        rw [hm'] at hm
        cases hm

/-- C6 witness: `PATCH /x` fails with the syntax-stage error, and a
successful parse of `get /x` (lower-case method token) yields
`Method.GET`. -/
theorem c6_method_literals_witness :
    parse_endpoint (String.mk ("PATCH".data ++ " /x".data)) = .err .PestError ∧
    methodOfLit (toUpperStr (String.mk "get".data)) =
      some (Endpoint.mk .GET [.Segment "x"] [] none none).method := by
  constructor
  · exact (c6_method_literals "PATCH".data " /x".data (by decide) (by decide)
      (by intro c hc; cases hc; decide)).1 (by decide)
  · exact (c6_method_literals "get".data " /x".data (by decide) (by decide)
      (by intro c hc; cases hc; decide)).2
      ⟨.GET, [.Segment "x"], [], none, none⟩ (by rfl)

/-- C9: whenever `parse_endpoint` returns `ok`, the endpoint's path is a
non-empty sequence. -/
theorem c9_path_nonempty (s : String) (e : Endpoint)
    (h : parse_endpoint s = .ok e) : e.path ≠ [] := by
  unfold parse_endpoint at h
  cases hsyn : parseEndpointSyntax s with
  | none => simp only [hsyn] at h; cases h
  | some t =>
    simp only [hsyn] at h
    obtain ⟨m, r1, r2, pa, r3, qp, r4, hm, hsp, hp, hq, ht⟩ := ep_decomp _ _ hsyn
    subst ht
    simp only [Pair.rule, if_true] at h
    obtain ⟨p0, ps, hpa, _, _⟩ := parsePath_inv _ _ _ hp
    subst hpa
    obtain ⟨_, hpath, _⟩ := endpoint_tryFrom_parts "" m _ qp _ e h
    have hlen := collectR_ok_length _ _ hpath
    intro hnil
    rw [hnil] at hlen
    simp [Pair.children] at hlen

/-- C9 witness: the parse of `GET /x` succeeds and its path is
non-empty. -/
theorem c9_path_nonempty_witness :
    parse_endpoint "GET /x" = .ok ⟨.GET, [.Segment "x"], [], none, none⟩ ∧
    (Endpoint.mk .GET [.Segment "x"] [] none none).path ≠ [] := by
  exact ⟨rfl, c9_path_nonempty "GET /x" ⟨.GET, [.Segment "x"], [], none, none⟩ rfl⟩

/-- C7: for every accepted input, the endpoint's `query_params` is the
image, in order, of the query group's children (element `i` of the
result converts from child `i`), the consumed query clause text is
exactly `?name:type&name:type...` rendered from those children in list
order, and when the clause is absent (no `?` at the query position) the
result is the empty sequence — with the parse still succeeding. -/
theorem c7_query_params_order (s : String) (e : Endpoint)
    (h : parse_endpoint s = .ok e) :
    ∃ (m pa : Pair) (vs tr : List Pair) (pre r3 r4 : List Char),
      parseEndpointSyntax s = some (Pair.mk .endpoint ""
        ([m, pa, Pair.mk .query_params "" vs] ++ tr)) ∧
      s.data = pre ++ r3 ∧
      parseQuery r3 = (Pair.mk .query_params "" vs, r4) ∧
      r3 = queryRender vs ++ r4 ∧
      (r3.head? ≠ some '?' → vs = [] ∧ e.query_params = []) ∧
      collectR (vs.map Variable.tryFrom) = .ok e.query_params ∧
      e.query_params.length = vs.length ∧
      (∀ (i : Nat) (hi : i < vs.length) (hv : i < e.query_params.length),
        Variable.tryFrom (vs.get ⟨i, hi⟩) = .ok (e.query_params.get ⟨i, hv⟩)) := by
  unfold parse_endpoint at h
  cases hsyn : parseEndpointSyntax s with
  | none => simp only [hsyn] at h; cases h
  | some t =>
    simp only [hsyn] at h
    obtain ⟨m, r1, r2, pa, r3, qp, r4, hm, hsp, hp, hq, ht⟩ := ep_decomp _ _ hsyn
    subst ht
    simp only [Pair.rule, if_true] at h
    obtain ⟨vs, hqp, hr3, hshape, habs⟩ := parseQuery_inv _ _ _ hq
    subst hqp
    obtain ⟨_, _, hqc⟩ := endpoint_tryFrom_parts "" m pa _ _ e h
    simp only [Pair.children] at hqc
    obtain ⟨w, hmshape, hmmem, hsdata⟩ := parseMethod_inv _ _ _ hm
    obtain ⟨sp, hr1, _, _⟩ := parseSpaces1_inv _ _ hsp
    obtain ⟨p0, ps, hpa, hr2, _⟩ := parsePath_inv _ _ _ hp
    have hlen := collectR_ok_length _ _ hqc
    rw [List.length_map] at hlen
    refine ⟨m, pa, vs, parseTrailing r4, w.data ++ sp ++ pathRender (p0 :: ps), r3, r4,
      rfl, ?_, hq, hr3, ?_, hqc, hlen, ?_⟩
    · rw [hsdata, hr1, hr2]
      simp [List.append_assoc]
    · intro hne
      obtain ⟨hvs, _⟩ := habs hne
      refine ⟨hvs, ?_⟩
      rw [hvs] at hlen
      exact List.length_eq_zero.mp hlen
    · exact collectR_map_get _ _ _ hqc

/-- C7 witness: `GET /a?x:int&y:bool` parses with query parameters
`[(x, int), (y, bool)]`, and the decomposition of the claim holds at
that input. -/
theorem c7_query_params_order_witness :
    parse_endpoint "GET /a?x:int&y:bool" =
      .ok ⟨.GET, [.Segment "a"], [⟨"x", .int⟩, ⟨"y", .bool⟩], none, none⟩ ∧
    (∃ (m pa : Pair) (vs tr : List Pair) (pre r3 r4 : List Char),
      parseEndpointSyntax "GET /a?x:int&y:bool" = some (Pair.mk .endpoint ""
        ([m, pa, Pair.mk .query_params "" vs] ++ tr)) ∧
      ("GET /a?x:int&y:bool" : String).data = pre ++ r3 ∧
      parseQuery r3 = (Pair.mk .query_params "" vs, r4) ∧
      r3 = queryRender vs ++ r4 ∧
      (r3.head? ≠ some '?' → vs = [] ∧
        (Endpoint.mk .GET [.Segment "a"] [⟨"x", .int⟩, ⟨"y", .bool⟩] none none).query_params = []) ∧
      collectR (vs.map Variable.tryFrom) =
        .ok (Endpoint.mk .GET [.Segment "a"] [⟨"x", .int⟩, ⟨"y", .bool⟩] none none).query_params ∧
      (Endpoint.mk .GET [.Segment "a"] [⟨"x", .int⟩, ⟨"y", .bool⟩] none none).query_params.length = vs.length ∧
      (∀ (i : Nat) (hi : i < vs.length)
        (hv : i < (Endpoint.mk .GET [.Segment "a"] [⟨"x", .int⟩, ⟨"y", .bool⟩] none none).query_params.length),
        Variable.tryFrom (vs.get ⟨i, hi⟩) =
          .ok ((Endpoint.mk .GET [.Segment "a"] [⟨"x", .int⟩, ⟨"y", .bool⟩] none none).query_params.get ⟨i, hv⟩))) := by
  refine ⟨rfl, ?_⟩
  exact c7_query_params_order "GET /a?x:int&y:bool"
    ⟨.GET, [.Segment "a"], [⟨"x", .int⟩, ⟨"y", .bool⟩], none, none⟩ rfl

/-- C8: for every accepted input, the path group's children render back
to the consumed source text in list order (`/seg` or `/{name:type}` per
component), the endpoint's path is their image in order, and element-wise
a `segment` child becomes `Segment` of its literal token while a
`variable` child becomes `Variable(name, type)`. -/
theorem c8_path_classification (s : String) (e : Endpoint)
    (h : parse_endpoint s = .ok e) :
    ∃ (m qp : Pair) (ps tr : List Pair) (pre r2 r3 : List Char),
      parseEndpointSyntax s = some (Pair.mk .endpoint ""
        ([m, Pair.mk .path "" ps, qp] ++ tr)) ∧
      ps ≠ [] ∧
      s.data = pre ++ r2 ∧
      r2 = pathRender ps ++ r3 ∧
      collectR (ps.map Path.tryFrom) = .ok e.path ∧
      e.path.length = ps.length ∧
      (∀ (i : Nat) (hi : i < ps.length) (hv : i < e.path.length),
        (∃ seg : String,
          ps.get ⟨i, hi⟩ = Pair.mk .segment "" [Pair.mk .ident seg []] ∧
          e.path.get ⟨i, hv⟩ = .Segment seg) ∨
        (∃ (n t : String) (v : VariableType),
          ps.get ⟨i, hi⟩ =
            Pair.mk .var "" [Pair.mk .ident n [], Pair.mk .variable_type t []] ∧
          VariableType.tryFrom (Pair.mk .variable_type t []) = .ok v ∧
          e.path.get ⟨i, hv⟩ = .Variable n v)) := by
  unfold parse_endpoint at h
  cases hsyn : parseEndpointSyntax s with
  | none => simp only [hsyn] at h; cases h
  | some t =>
    simp only [hsyn] at h
    obtain ⟨m, r1, r2, pa, r3, qp, r4, hm, hsp, hp, hq, ht⟩ := ep_decomp _ _ hsyn
    subst ht
    simp only [Pair.rule, if_true] at h
    obtain ⟨p0, ps, hpa, hr2, hshape⟩ := parsePath_inv _ _ _ hp
    subst hpa
    obtain ⟨_, hpc, _⟩ := endpoint_tryFrom_parts "" m _ qp _ e h
    simp only [Pair.children] at hpc
    obtain ⟨w, hmshape, hmmem, hsdata⟩ := parseMethod_inv _ _ _ hm
    obtain ⟨sp, hr1, _, _⟩ := parseSpaces1_inv _ _ hsp
    have hlen := collectR_ok_length _ _ hpc
    rw [List.length_map] at hlen
    refine ⟨m, qp, p0 :: ps, parseTrailing r4, w.data ++ sp, r2, r3,
      rfl, by simp, ?_, hr2, hpc, hlen, ?_⟩
    · rw [hsdata, hr1]
      simp [List.append_assoc]
    · intro i hi hv
      have hget := collectR_map_get _ _ _ hpc i hi hv
      rcases hshape ((p0 :: ps).get ⟨i, hi⟩) (List.get_mem _ _ _) with
        ⟨seg, hseg⟩ | ⟨n, t, hvar⟩
      · rw [hseg] at hget
        simp [Path.tryFrom, Pair.rule, Pair.children, Pair.text] at hget
        exact Or.inl ⟨seg, hseg, hget.symm⟩
      · rw [hvar] at hget
        cases hvt : VariableType.tryFrom (Pair.mk .variable_type t []) with
        | ok v =>
          simp [Path.tryFrom, Variable.tryFrom, Pair.rule, Pair.children,
            Pair.text, hvt] at hget
          exact Or.inr ⟨n, t, v, hvar, hvt, hget.symm⟩
        | err er =>
          simp [Path.tryFrom, Variable.tryFrom, Pair.rule, Pair.children,
            Pair.text, hvt] at hget
        | abort =>
          simp [Path.tryFrom, Variable.tryFrom, Pair.rule, Pair.children,
            Pair.text, hvt] at hget

/-- C8 witness: `GET /a/{n:int}` parses with path
`[Segment "a", Variable "n" int]`, and the decomposition of the claim
holds at that input. -/
theorem c8_path_classification_witness :
    parse_endpoint "GET /a/{n:int}" =
      .ok ⟨.GET, [.Segment "a", .Variable "n" .int], [], none, none⟩ ∧
    (∃ (m qp : Pair) (ps tr : List Pair) (pre r2 r3 : List Char),
      parseEndpointSyntax "GET /a/{n:int}" = some (Pair.mk .endpoint ""
        ([m, Pair.mk .path "" ps, qp] ++ tr)) ∧
      ps ≠ [] ∧
      ("GET /a/{n:int}" : String).data = pre ++ r2 ∧
      r2 = pathRender ps ++ r3 ∧
      collectR (ps.map Path.tryFrom) =
        .ok (Endpoint.mk .GET [.Segment "a", .Variable "n" .int] [] none none).path ∧
      (Endpoint.mk .GET [.Segment "a", .Variable "n" .int] [] none none).path.length = ps.length ∧
      (∀ (i : Nat) (hi : i < ps.length)
        (hv : i < (Endpoint.mk .GET [.Segment "a", .Variable "n" .int] [] none none).path.length),
        (∃ seg : String,
          ps.get ⟨i, hi⟩ = Pair.mk .segment "" [Pair.mk .ident seg []] ∧
          (Endpoint.mk .GET [.Segment "a", .Variable "n" .int] [] none none).path.get ⟨i, hv⟩ =
            .Segment seg) ∨
        (∃ (n t : String) (v : VariableType),
          ps.get ⟨i, hi⟩ =
            Pair.mk .var "" [Pair.mk .ident n [], Pair.mk .variable_type t []] ∧
          VariableType.tryFrom (Pair.mk .variable_type t []) = .ok v ∧
          (Endpoint.mk .GET [.Segment "a", .Variable "n" .int] [] none none).path.get ⟨i, hv⟩ =
            .Variable n v))) := by
  refine ⟨rfl, ?_⟩
  exact c8_path_classification "GET /a/{n:int}"
    ⟨.GET, [.Segment "a", .Variable "n" .int], [], none, none⟩ rfl

end IDL
